import Mathlib

/-!
Verification development for the ingesil crawler repository.

This file shallowly embeds the crawl orchestrator of the repository:

* `src/python/src/ingesil_crawlers/fsm.py` — the generic state-machine
  engine (`FSMRunner.run`), embedded as a fuel-indexed recursion where
  `fuel = max_steps - steps`; the Python loop compares the step counter
  against `config.max_steps` only through `steps >= max_steps`, which is
  `fuel = 0` here, so the embedding is faithful to the control flow:
  terminal check first, then budget check, then handler lookup, then the
  unconditional transition-hook invocation.
* `src/python/crawlers/crawler_boe.py` — `resolve_crawl_range`,
  `upsert_daily_journal`, `upsert_notice`.
* `src/python/crawlers/crawler_dogc.py` — `upsert_daily_journal`,
  `upsert_notice`, `fetch_pending_daily_journal`, the cookie-consent
  interrupt router (`maybe_route_to_cookie_state`, `state_cookie_consent`),
  `state_home`, and `simulate_human_transition`.

Dates are embedded as `Nat` day numbers (adding one day is `+ 1`); CLI
date strings arrive already parsed as `Option Nat` (string parsing of
dates is a locale detail outside the modelled core).  Database tables are
lists of rows; `NOW()` is an explicit `now : Nat` argument; fresh ids for
`INSERT` are explicit `new_id` arguments.  Browser effects are reduced to
the observable pieces the claims are about: whether the cookie-consent
banner is visible, whether an artifact capture succeeds, and which pacing
actions / captures were performed (recorded as traces).
-/

namespace Ingesil

/-! ### The generic FSM engine (fsm.py) -/

/-- `FSMConfig` from fsm.py: the step budget. -/
structure FSMConfig where
  max_steps : Nat := 50
deriving DecidableEq

/-- The ways `FSMRunner.run` can fail: the `RuntimeError` raised when the
step budget is exhausted, the `KeyError` for a missing handler, and an
exception of type `E` propagating out of a handler. -/
inductive FSMOutcome (E : Type) where
  | stepBudgetExceeded
  | missingHandler
  | raised (e : E)
deriving DecidableEq

/-- `self.on_transition(context, state, next_state)` when a hook is
configured, identity otherwise. -/
def applyHook {S C : Type} (hook : Option (C → S → S → C)) (c : C) (a b : S) : C :=
  match hook with
  | none => c
  | some f => f c a b

/-- The loop body of `FSMRunner.run` (fsm.py lines 32-50), with
`fuel = max_steps - steps`.  Per iteration: terminal check, then budget
check (`steps >= max_steps` is `fuel = 0`), then handler lookup, then the
handler call, then the hook — invoked unconditionally whenever configured
(fsm.py lines 45-46). -/
def fsmRunAux {S C E : Type} [DecidableEq S]
    (handlers : S → Option (C → Except E (C × S)))
    (hook : Option (C → S → S → C)) (terminal : S) :
    Nat → C → S → Except (FSMOutcome E) (C × S)
  | 0, ctx, st =>
    if st = terminal then Except.ok (ctx, st) else Except.error FSMOutcome.stepBudgetExceeded
  | fuel + 1, ctx, st =>
    if st = terminal then Except.ok (ctx, st)
    else
      match handlers st with
      | none => Except.error FSMOutcome.missingHandler
      | some h =>
        match h ctx with
        | Except.error e => Except.error (FSMOutcome.raised e)
        | Except.ok (ctx2, nxt) =>
          fsmRunAux handlers hook terminal fuel (applyHook hook ctx2 st nxt) nxt

/-- `FSMRunner` from fsm.py. -/
structure FSMRunner (S C E : Type) where
  initial_state : S
  terminal_state : S
  handlers : S → Option (C → Except E (C × S))
  on_transition : Option (C → S → S → C)
  config : FSMConfig

/-- `FSMRunner.run(context)`; the model also returns the final context. -/
def FSMRunner.run {S C E : Type} [DecidableEq S] (r : FSMRunner S C E) (ctx : C) :
    Except (FSMOutcome E) (C × S) :=
  fsmRunAux r.handlers r.on_transition r.terminal_state r.config.max_steps ctx r.initial_state

/-- The pure trajectory of the engine for total, non-raising handlers
`h`: state and context after `n` handler invocations (each invocation
followed by the hook, exactly as in the loop). -/
def fsmTraj {S C : Type} (h : S → C → C × S) (hook : Option (C → S → S → C)) :
    Nat → C → S → C × S
  | 0, ctx, st => (ctx, st)
  | n + 1, ctx, st =>
    fsmTraj h hook n (applyHook hook (h st ctx).1 st (h st ctx).2) (h st ctx).2

/-- One non-terminal engine iteration with enough budget: handler found,
handler succeeds, the hook is applied (unconditionally), and the loop
continues with the handler's result as the new state. -/
lemma fsmRunAux_step {S C E : Type} [DecidableEq S]
    (handlers : S → Option (C → Except E (C × S))) (hook : Option (C → S → S → C))
    (terminal : S) (fuel : Nat) (ctx : C) (st : S)
    (h : C → Except E (C × S)) (ctx2 : C) (nxt : S)
    (hne : st ≠ terminal) (hh : handlers st = some h)
    (hres : h ctx = Except.ok (ctx2, nxt)) :
    fsmRunAux handlers hook terminal (fuel + 1) ctx st
      = fsmRunAux handlers hook terminal fuel (applyHook hook ctx2 st nxt) nxt := by
  simp only [fsmRunAux, if_neg hne, hh, hres]

/-- A failing handler propagates out of the engine loop uncaught. -/
lemma fsmRunAux_raised {S C E : Type} [DecidableEq S]
    (handlers : S → Option (C → Except E (C × S))) (hook : Option (C → S → S → C))
    (terminal : S) (fuel : Nat) (ctx : C) (st : S)
    (h : C → Except E (C × S)) (e : E)
    (hne : st ≠ terminal) (hh : handlers st = some h)
    (hres : h ctx = Except.error e) :
    fsmRunAux handlers hook terminal (fuel + 1) ctx st
      = Except.error (FSMOutcome.raised e) := by
  simp only [fsmRunAux, if_neg hne, hh, hres]

/-- Total non-raising handlers wrapped for the engine. -/
def totalHandlers {S C E : Type} (h : S → C → C × S) :
    S → Option (C → Except E (C × S)) :=
  fun s => some (fun c => Except.ok (h s c))

/-- If the trajectory stays non-terminal for the first `max` invocations
and is terminal after exactly `max` invocations, a budget of `max`
completes the run without a step-budget error. -/
lemma fsmRunAux_reaches_terminal {S C E : Type} [DecidableEq S]
    (h : S → C → C × S) (hook : Option (C → S → S → C)) (terminal : S)
    (max : Nat) :
    ∀ (ctx : C) (st : S),
      (∀ j, j < max → (fsmTraj h hook j ctx st).2 ≠ terminal) →
      (fsmTraj h hook max ctx st).2 = terminal →
      fsmRunAux (E := E) (totalHandlers h) hook terminal max ctx st
        = Except.ok (fsmTraj h hook max ctx st) := by
  induction max with
  | zero =>
    intro ctx st _ hterm
    simp only [fsmTraj] at hterm ⊢
    simp [fsmRunAux, hterm]
  | succ n ih =>
    intro ctx st hlt hterm
    have h0 : st ≠ terminal := by simpa [fsmTraj] using hlt 0 (Nat.succ_pos n)
    have hstep := fsmRunAux_step (E := E) (totalHandlers h) hook terminal n ctx st
      (fun c => Except.ok (h st c)) (h st ctx).1 (h st ctx).2 h0 rfl rfl
    rw [hstep]
    exact ih (applyHook hook (h st ctx).1 st (h st ctx).2) (h st ctx).2
      (fun j hj => hlt (j + 1) (by omega)) hterm

/-- With total handlers, the engine errors with the step-budget failure
exactly when the trajectory is still non-terminal after `max` handler
invocations (so the error fires only when a `max + 1`-th invocation would
be needed, never when the terminal state is reached by invocation
`max`). -/
lemma fsmRunAux_budget_iff {S C E : Type} [DecidableEq S]
    (h : S → C → C × S) (hook : Option (C → S → S → C)) (terminal : S)
    (max : Nat) :
    ∀ (ctx : C) (st : S),
      (fsmRunAux (E := E) (totalHandlers h) hook terminal max ctx st
          = Except.error FSMOutcome.stepBudgetExceeded
        ↔ ∀ j, j ≤ max → (fsmTraj h hook j ctx st).2 ≠ terminal) := by
  induction max with
  | zero =>
    intro ctx st
    constructor
    · intro herr j hj
      interval_cases j
      simp only [fsmTraj]
      intro hst
      rw [fsmRunAux, if_pos hst] at herr
      exact Except.noConfusion herr
    · intro hall
      have h0 : st ≠ terminal := by simpa [fsmTraj] using hall 0 (Nat.le_refl 0)
      simp [fsmRunAux, h0]
  | succ n ih =>
    intro ctx st
    by_cases h0 : st = terminal
    · constructor
      · intro herr
        rw [fsmRunAux, if_pos h0] at herr
        exact absurd herr (by simp)
      · intro hall
        exact absurd (by simpa [fsmTraj] using h0) (hall 0 (Nat.zero_le _))
    · have hstep := fsmRunAux_step (E := E) (totalHandlers h) hook terminal n ctx st
        (fun c => Except.ok (h st c)) (h st ctx).1 (h st ctx).2 h0 rfl rfl
      rw [hstep, ih]
      constructor
      · intro hall j hj
        match j with
        | 0 => simpa [fsmTraj] using h0
        | j + 1 => exact hall j (by omega)
      · intro hall j hj
        exact hall (j + 1) (by omega)

/-- C6: with the configured budget `max`, a run whose trajectory first
reaches the terminal state at exactly invocation `max` completes without
a step-budget error, and the step-budget error occurs precisely when the
state is still non-terminal after `max` handler invocations — i.e. the
error fires on step `max + 1`, never on step `max`. -/
theorem step_budget_fires_after_max {S C E : Type} [DecidableEq S]
    (h : S → C → C × S) (hook : Option (C → S → S → C)) (terminal : S)
    (max : Nat) (ctx : C) (st : S) :
    ((∀ j, j < max → (fsmTraj h hook j ctx st).2 ≠ terminal) →
        (fsmTraj h hook max ctx st).2 = terminal →
        FSMRunner.run (E := E)
            ⟨st, terminal, totalHandlers h, hook, ⟨max⟩⟩ ctx
          = Except.ok (fsmTraj h hook max ctx st))
    ∧ (FSMRunner.run (E := E)
            ⟨st, terminal, totalHandlers h, hook, ⟨max⟩⟩ ctx
          = Except.error FSMOutcome.stepBudgetExceeded
        ↔ ∀ j, j ≤ max → (fsmTraj h hook j ctx st).2 ≠ terminal) :=
  ⟨fun hlt hterm => fsmRunAux_reaches_terminal h hook terminal max ctx st hlt hterm,
   fsmRunAux_budget_iff h hook terminal max ctx st⟩

/-- Concrete handler used to witness the step-budget theorem: the state
counts up by one per invocation. -/
def countUpHandler : Nat → Nat → Nat × Nat :=
  fun s c => (c, s + 1)

/-- Witness for `step_budget_fires_after_max`: with terminal state `3`,
budget `3`, starting at `0`, the run completes with exactly the budget,
and with budget `2` it fails with the step-budget error. -/
theorem step_budget_fires_after_max_witness :
    FSMRunner.run (E := Unit)
        ⟨0, 3, totalHandlers countUpHandler, none, ⟨3⟩⟩ 0
      = Except.ok (fsmTraj countUpHandler none 3 0 0)
    ∧ FSMRunner.run (E := Unit)
        ⟨0, 3, totalHandlers countUpHandler, none, ⟨2⟩⟩ 0
      = Except.error FSMOutcome.stepBudgetExceeded :=
  ⟨(step_budget_fires_after_max countUpHandler none 3 3 0 0).1
      (by decide) (by decide),
   (step_budget_fires_after_max countUpHandler none 3 2 0 0).2.mpr
      (by decide)⟩

/-! ### The DOGC crawler model (crawler_dogc.py)

Only the state names, the cookie-consent interrupt router, the
`state_home` handler, and the pacing hook are embedded; the browser is
reduced to the observable facts the claims depend on: whether the
cookie-consent accept button is currently visible (`bannerVisible`) and
whether an artifact capture succeeds (`captureOk`).  Captures and pacing
actions performed are recorded as traces. -/

/-- `DogcState` enum from crawler_dogc.py. -/
inductive DogcState where
  | HOME
  | COOKIE_CONSENT
  | NAVIGATE_TO_START_MONTH
  | PROCESS_MONTH
  | PICK_PENDING_DAILY_JOURNAL
  | OPEN_DAILY_JOURNAL
  | PICK_NOTICE_LINK
  | OPEN_NOTICE
  | DONE
deriving DecidableEq

/-- Failures a DOGC handler can raise in this model: an artifact-capture
failure, and the `RuntimeError` of `state_cookie_consent` when no visible
accept button is found. -/
inductive RunError where
  | captureFailed
  | cookieButtonMissing
deriving DecidableEq

/-- The per-run mutable context (`CrawlerContext`) restricted to the
fields the claims are about, plus the abstracted browser facts.
`resume_state` is the capacity-1 resume register; `captures` records
successful `ArtifactWriter.capture` calls by state name; `pacing`
records the transitions for which the pacing hook performed its
sleep/scroll actions. -/
structure DogcCtx where
  bannerVisible : Bool
  captureOk : Bool
  captures : List String
  resume_state : Option DogcState
  pacing : List (DogcState × DogcState)
deriving DecidableEq

/-- `find_cookie_accept_button`: the obstruction probe; in the model the
visible accept button exists exactly while the banner is displayed. -/
def find_cookie_accept_button (ctx : DogcCtx) : Bool :=
  ctx.bannerVisible

/-- `ArtifactWriter.capture`: appends to the capture trace on success and
raises on failure.  In the source the call sites inside state handlers
are not wrapped in any try/except. -/
def capture (ctx : DogcCtx) (st : String) : Except RunError DogcCtx :=
  if ctx.captureOk then Except.ok { ctx with captures := ctx.captures ++ [st] }
  else Except.error RunError.captureFailed

/-- `maybe_route_to_cookie_state` (crawler_dogc.py lines 1046-1057): if
the probe finds the obstruction, record the intended state in the resume
register and substitute `COOKIE_CONSENT`; otherwise no detour. -/
def maybe_route_to_cookie_state (ctx : DogcCtx) (current_state : DogcState) :
    DogcCtx × Option DogcState :=
  if find_cookie_accept_button ctx then
    ({ ctx with resume_state := some current_state }, some DogcState.COOKIE_CONSENT)
  else
    (ctx, none)

/-- `state_cookie_consent` (crawler_dogc.py lines 1060-1091): raise if the
button vanished, click it (dismissing the banner), capture, then pop the
resume register — falling back to `NAVIGATE_TO_START_MONTH` when it is
empty. -/
def state_cookie_consent (ctx : DogcCtx) : Except RunError (DogcCtx × DogcState) :=
  if find_cookie_accept_button ctx then
    match capture { ctx with bannerVisible := false } "COOKIE_CONSENT" with
    | Except.error e => Except.error e
    | Except.ok ctx2 =>
      match ctx2.resume_state with
      | none => Except.ok (ctx2, DogcState.NAVIGATE_TO_START_MONTH)
      | some s => Except.ok ({ ctx2 with resume_state := none }, s)
  else
    Except.error RunError.cookieButtonMissing

/-- `state_home` (crawler_dogc.py lines 727-738): navigate (a pure
browser effect, not modelled), capture — unguarded, so a failure
propagates — then probe for the cookie obstruction with the intended
destination `NAVIGATE_TO_START_MONTH` as the state to resume. -/
def state_home (ctx : DogcCtx) : Except RunError (DogcCtx × DogcState) :=
  match capture ctx "HOME" with
  | Except.error e => Except.error e
  | Except.ok ctx1 =>
    match maybe_route_to_cookie_state ctx1 DogcState.NAVIGATE_TO_START_MONTH with
    | (ctx2, some s) => Except.ok (ctx2, s)
    | (ctx2, none) => Except.ok (ctx2, DogcState.NAVIGATE_TO_START_MONTH)

/-- `simulate_human_transition` (crawler_dogc.py lines 1094-1121): the
transition hook itself returns immediately when the destination is the
terminal state `DONE`; otherwise it performs the randomized sleep/scroll
pacing, recorded here as one pacing event for the transition. -/
def simulate_human_transition (ctx : DogcCtx) (from_state to_state : DogcState) :
    DogcCtx :=
  if to_state = DogcState.DONE then ctx
  else { ctx with pacing := ctx.pacing ++ [(from_state, to_state)] }

/-- The handler table of the DOGC `FSMRunner`, restricted to the handlers
embedded in this development (the other handlers drive site-specific
extraction that no claim depends on). -/
def dogc_handlers_fragment :
    DogcState → Option (DogcCtx → Except RunError (DogcCtx × DogcState)) :=
  fun s =>
    match s with
    | DogcState.HOME => some state_home
    | DogcState.COOKIE_CONSENT => some state_cookie_consent
    | _ => none

/-- The exit-code logic of `main` in both crawlers: exit 0 when the run
returns, exit 1 on any propagated failure; in the failure branch the
final best-effort error capture is wrapped in its own try/except, so
whether that capture succeeds (`error_capture_ok`) cannot influence the
exit code. -/
def crawler_exit_code {S C E : Type} (outcome : Except (FSMOutcome E) (C × S))
    (error_capture_ok : Bool) : Nat :=
  match outcome, error_capture_ok with
  | Except.ok _, _ => 0
  | Except.error _, _ => 1

/-- Concrete contexts used for counterexamples and witnesses. -/
def dctxGood : DogcCtx :=
  { bannerVisible := false, captureOk := true, captures := [],
    resume_state := none, pacing := [] }

/-- Like `dctxGood` but the artifact capture fails. -/
def dctxBad : DogcCtx := { dctxGood with captureOk := false }

/-- Like `dctxGood` but the cookie banner is visible. -/
def dctxBanner : DogcCtx := { dctxGood with bannerVisible := true }

/-- A transition hook that records every invocation. -/
def hookRecordPairs (c : List (Nat × Nat)) (a b : Nat) : List (Nat × Nat) :=
  c ++ [(a, b)]

/-- Handlers over states `Nat` that always return state `1`. -/
def toTerminalHandlers :
    Nat → Option (List (Nat × Nat) → Except Unit (List (Nat × Nat) × Nat)) :=
  fun _ => some (fun c => Except.ok (c, 1))

/-- C5 counterexample: in a machine whose only transition goes straight to
the terminal state `1`, the engine still invokes the configured transition
hook — the recorded trace is `[(0, 1)]`, not `[]` — contradicting the
claim that the hook is not invoked when the handler result equals the
terminal state (fsm.py lines 44-48 invoke it unconditionally). -/
theorem engine_hook_fires_on_terminal_transition :
    FSMRunner.run ⟨0, 1, toTerminalHandlers, some hookRecordPairs, ⟨50⟩⟩
        ([] : List (Nat × Nat))
      = Except.ok ([(0, 1)], 1)
    ∧ ([(0, 1)] : List (Nat × Nat)) ≠ [] :=
  ⟨rfl, by decide⟩

/-- C5 (amended): on every handler step the engine applies the configured
transition hook, including when the handler's result is the terminal
state; the skip of the pacing actions for terminal destinations is
implemented inside the hook itself — `simulate_human_transition` performs
no pacing when the destination is `DONE`, and records a pacing event for
every other destination. -/
theorem engine_applies_hook_unconditionally :
    (∀ {S C E : Type} [DecidableEq S]
        (handlers : S → Option (C → Except E (C × S))) (f : C → S → S → C)
        (terminal : S) (fuel : Nat) (ctx : C) (st : S)
        (h : C → Except E (C × S)) (ctx2 : C) (nxt : S),
        st ≠ terminal → handlers st = some h → h ctx = Except.ok (ctx2, nxt) →
        fsmRunAux handlers (some f) terminal (fuel + 1) ctx st
          = fsmRunAux handlers (some f) terminal fuel (f ctx2 st nxt) nxt)
    ∧ (∀ (ctx : DogcCtx) (from_state : DogcState),
        simulate_human_transition ctx from_state DogcState.DONE = ctx)
    ∧ (∀ (ctx : DogcCtx) (from_state to_state : DogcState),
        to_state ≠ DogcState.DONE →
        (simulate_human_transition ctx from_state to_state).pacing
          = ctx.pacing ++ [(from_state, to_state)]) := by
  refine ⟨?_, ?_, ?_⟩
  · intro S C E _ handlers f terminal fuel ctx st h ctx2 nxt hne hh hres
    exact fsmRunAux_step handlers (some f) terminal fuel ctx st h ctx2 nxt hne hh hres
  · intro ctx from_state
    simp [simulate_human_transition]
  · intro ctx from_state to_state hne
    simp [simulate_human_transition, hne]

/-- Witness for `engine_applies_hook_unconditionally` at a concrete
machine and a concrete non-terminal transition of the pacing hook. -/
theorem engine_applies_hook_unconditionally_witness :
    fsmRunAux toTerminalHandlers (some hookRecordPairs) 1 50 [] 0
      = fsmRunAux toTerminalHandlers (some hookRecordPairs) 1 49
          (hookRecordPairs [] 0 1) 1
    ∧ simulate_human_transition dctxGood DogcState.HOME DogcState.DONE = dctxGood
    ∧ (simulate_human_transition dctxGood DogcState.HOME
          DogcState.NAVIGATE_TO_START_MONTH).pacing
        = dctxGood.pacing ++ [(DogcState.HOME, DogcState.NAVIGATE_TO_START_MONTH)] :=
  ⟨engine_applies_hook_unconditionally.1 toTerminalHandlers hookRecordPairs 1 49 [] 0
      (fun c => Except.ok (c, 1)) [] 1 (by decide) rfl rfl,
   engine_applies_hook_unconditionally.2.1 dctxGood DogcState.HOME,
   engine_applies_hook_unconditionally.2.2 dctxGood DogcState.HOME
      DogcState.NAVIGATE_TO_START_MONTH (by decide)⟩

/-- C7: if the obstruction probe reports the obstruction at the entry of a
designated state `X`, the router records `X` in the resume register and
substitutes `COOKIE_CONSENT`; the obstruction handler dismisses the
banner, pops the register and returns `X`, after which the register is
empty and the probe no longer reroutes; and when the register is empty at
the end of the obstruction handler it falls back to the default resume
state `NAVIGATE_TO_START_MONTH`. -/
theorem interrupt_router_roundtrip (ctx : DogcCtx) (X : DogcState)
    (hb : ctx.bannerVisible = true) (hc : ctx.captureOk = true) :
    (maybe_route_to_cookie_state ctx X).2 = some DogcState.COOKIE_CONSENT
    ∧ ((maybe_route_to_cookie_state ctx X).1).resume_state = some X
    ∧ (∃ ctx2 : DogcCtx,
        state_cookie_consent (maybe_route_to_cookie_state ctx X).1
          = Except.ok (ctx2, X)
        ∧ ctx2.resume_state = none
        ∧ find_cookie_accept_button ctx2 = false
        ∧ maybe_route_to_cookie_state ctx2 X = (ctx2, none))
    ∧ (∀ c : DogcCtx,
        c.bannerVisible = true → c.captureOk = true → c.resume_state = none →
        ∃ c2 : DogcCtx,
          state_cookie_consent c = Except.ok (c2, DogcState.NAVIGATE_TO_START_MONTH)
          ∧ c2.resume_state = none) := by
  refine ⟨?_, ?_, ?_, ?_⟩
  · simp [maybe_route_to_cookie_state, find_cookie_accept_button, hb]
  · simp [maybe_route_to_cookie_state, find_cookie_accept_button, hb]
  · refine ⟨({ ctx with
               bannerVisible := false,
               captures := ctx.captures ++ ["COOKIE_CONSENT"],
               resume_state := none }),
      ?_, rfl, rfl, ?_⟩
    · simp [maybe_route_to_cookie_state, find_cookie_accept_button, hb,
        state_cookie_consent, capture, hc]
    · simp [maybe_route_to_cookie_state, find_cookie_accept_button]
  · intro c hcb hcc hcr
    refine ⟨({ c with
               bannerVisible := false,
               captures := c.captures ++ ["COOKIE_CONSENT"] }), ?_, hcr⟩
    simp [state_cookie_consent, find_cookie_accept_button, capture, hcb, hcc, hcr]

/-- Witness for `interrupt_router_roundtrip` with the banner visible and
`X = PROCESS_MONTH`. -/
theorem interrupt_router_roundtrip_witness :
    (maybe_route_to_cookie_state dctxBanner DogcState.PROCESS_MONTH).2
      = some DogcState.COOKIE_CONSENT
    ∧ ∃ ctx2 : DogcCtx,
        state_cookie_consent
            (maybe_route_to_cookie_state dctxBanner DogcState.PROCESS_MONTH).1
          = Except.ok (ctx2, DogcState.PROCESS_MONTH) :=
  ⟨(interrupt_router_roundtrip dctxBanner DogcState.PROCESS_MONTH rfl rfl).1,
   match (interrupt_router_roundtrip dctxBanner DogcState.PROCESS_MONTH rfl rfl).2.2.1 with
   | ⟨c2, h1, _, _, _⟩ => ⟨c2, h1⟩⟩

/-- C9 counterexample: with a failing artifact capture the `state_home`
handler raises instead of continuing — the run is aborted by a per-state
capture failure (outcome `error`, exit code 1), whereas with a working
capture the same handler succeeds.  The capture call sites inside
handlers are not guarded; only the final error-capture in `main` is. -/
theorem capture_failure_aborts_run :
    state_home dctxGood
      = Except.ok ({ dctxGood with captures := ["HOME"] },
          DogcState.NAVIGATE_TO_START_MONTH)
    ∧ state_home dctxBad = Except.error RunError.captureFailed
    ∧ fsmRunAux dogc_handlers_fragment (some simulate_human_transition)
        DogcState.DONE 10000 dctxBad DogcState.HOME
      = Except.error (FSMOutcome.raised RunError.captureFailed)
    ∧ crawler_exit_code
        (fsmRunAux dogc_handlers_fragment (some simulate_human_transition)
          DogcState.DONE 10000 dctxBad DogcState.HOME) true = 1 :=
  ⟨rfl, rfl, rfl, rfl⟩

/-- C9 (amended): a failure raised by the unguarded per-state artifact
capture propagates out of the handler and out of the engine, aborting the
run; the top level exits 1 on any propagated failure, and because the
final best-effort error capture is guarded, the exit code does not depend
on whether that last capture succeeds. -/
theorem capture_failure_propagation :
    (∀ {S C E : Type} [DecidableEq S]
        (handlers : S → Option (C → Except E (C × S)))
        (hook : Option (C → S → S → C)) (terminal : S) (fuel : Nat)
        (ctx : C) (st : S) (h : C → Except E (C × S)) (e : E),
        st ≠ terminal → handlers st = some h → h ctx = Except.error e →
        fsmRunAux handlers hook terminal (fuel + 1) ctx st
          = Except.error (FSMOutcome.raised e))
    ∧ (∀ ctx : DogcCtx, ctx.captureOk = false →
        state_home ctx = Except.error RunError.captureFailed)
    ∧ (∀ {S C E : Type} (o : Except (FSMOutcome E) (C × S)) (b b' : Bool),
        crawler_exit_code o b = crawler_exit_code o b')
    ∧ (∀ {S C E : Type} (f : FSMOutcome E) (b : Bool),
        crawler_exit_code (S := S) (C := C) (Except.error f) b = 1) := by
  refine ⟨?_, ?_, ?_, ?_⟩
  · intro S C E _ handlers hook terminal fuel ctx st h e hne hh hres
    exact fsmRunAux_raised handlers hook terminal fuel ctx st h e hne hh hres
  · intro ctx hco
    simp [state_home, capture, hco]
  · intro S C E o b b'
    cases o <;> rfl
  · intro S C E f b
    rfl

/-- Witness for `capture_failure_propagation` at the DOGC handler table
with a failing capture in `state_home`. -/
theorem capture_failure_propagation_witness :
    fsmRunAux dogc_handlers_fragment (some simulate_human_transition)
        DogcState.DONE (9999 + 1) dctxBad DogcState.HOME
      = Except.error (FSMOutcome.raised RunError.captureFailed)
    ∧ state_home dctxBad = Except.error RunError.captureFailed :=
  ⟨capture_failure_propagation.1 dogc_handlers_fragment
      (some simulate_human_transition) DogcState.DONE 9999 dctxBad DogcState.HOME
      state_home RunError.captureFailed (by decide) rfl rfl,
   capture_failure_propagation.2.1 dctxBad rfl⟩

/-! ### Crawl-window resolution (crawler_boe.py resolve_crawl_range) -/

/-- The configuration failures `resolve_crawl_range` raises: conflicting
`--day` and `--from-date` or `--to-date` overrides, a range override with a
missing bound, and a range whose start is after its end. -/
inductive ConfigError where
  | conflicting_overrides
  | incomplete_range
  | invalid_range
deriving DecidableEq

/-- `resolve_crawl_range` (crawler_boe.py lines 162-212).  Dates are day
numbers; the CLI strings arrive pre-parsed as `Option Nat` (`none` covers
both an absent and an empty argument, matching Python truthiness), and
the `MAX(issue_date)` query result is `latest_issue_date`.  Priority
order exactly as in the source: the single-day override (conflicting with
any range bound), then the range override (both bounds required,
`from <= to` required), then the watermark rule `watermark + 1 day` if a
watermark exists else the source start date, with `to = today`. -/
def resolve_crawl_range (day from_date_raw to_date_raw : Option Nat)
    (latest_issue_date : Option Nat) (source_start_at today : Nat) :
    Except ConfigError (Nat × Nat) :=
  match day with
  | some d =>
    if from_date_raw.isSome || to_date_raw.isSome then
      Except.error ConfigError.conflicting_overrides
    else Except.ok (d, d)
  | none =>
    if from_date_raw.isSome || to_date_raw.isSome then
      match from_date_raw, to_date_raw with
      | some f, some t =>
        if f > t then Except.error ConfigError.invalid_range else Except.ok (f, t)
      | _, _ => Except.error ConfigError.incomplete_range
    else
      match latest_issue_date with
      | none => Except.ok (source_start_at, today)
      | some w => Except.ok (w + 1, today)

/-- C1: with no overrides, the resolved window is
`[watermark + 1, today]` when a persisted max issue date exists and
`[source start, today]` otherwise; consequently the resolved `from` is
strictly after any existing watermark. -/
theorem watermark_resolution (w source_start today : Nat) :
    resolve_crawl_range none none none (some w) source_start today
      = Except.ok (w + 1, today)
    ∧ resolve_crawl_range none none none none source_start today
      = Except.ok (source_start, today)
    ∧ (∀ f t : Nat,
        resolve_crawl_range none none none (some w) source_start today
          = Except.ok (f, t) → w < f) := by
  refine ⟨rfl, rfl, ?_⟩
  intro f t h
  simp only [resolve_crawl_range, Option.isSome_none, Bool.or_self, Bool.false_eq_true,
    if_false] at h
  cases h
  omega

/-- Witness for `watermark_resolution` at watermark 10, start 3,
today 20. -/
theorem watermark_resolution_witness :
    resolve_crawl_range none none none (some 10) 3 20 = Except.ok (11, 20)
    ∧ resolve_crawl_range none none none none 3 20 = Except.ok (3, 20)
    ∧ 10 < 11 :=
  ⟨(watermark_resolution 10 3 20).1, (watermark_resolution 10 3 20).2.1,
   (watermark_resolution 10 3 20).2.2 11 20 (watermark_resolution 10 3 20).1⟩

/-- C8: the single-day override conflicts with any range bound; a range
override with only one bound is incomplete; a range with `from > to` is
invalid; a valid single day `d` resolves to `[d, d]`; and a valid range
resolves to exactly that range. -/
theorem override_validation (d f t source_start today : Nat) (wm : Option Nat) :
    (∀ fo to2 : Option Nat, (fo.isSome || to2.isSome) = true →
        resolve_crawl_range (some d) fo to2 wm source_start today
          = Except.error ConfigError.conflicting_overrides)
    ∧ resolve_crawl_range none (some f) none wm source_start today
        = Except.error ConfigError.incomplete_range
    ∧ resolve_crawl_range none none (some t) wm source_start today
        = Except.error ConfigError.incomplete_range
    ∧ (f > t → resolve_crawl_range none (some f) (some t) wm source_start today
        = Except.error ConfigError.invalid_range)
    ∧ resolve_crawl_range (some d) none none wm source_start today
        = Except.ok (d, d)
    ∧ (f ≤ t → resolve_crawl_range none (some f) (some t) wm source_start today
        = Except.ok (f, t)) := by
  refine ⟨?_, rfl, rfl, ?_, rfl, ?_⟩
  · intro fo to2 hsome
    simp [resolve_crawl_range, hsome]
  · intro hgt
    simp [resolve_crawl_range, hgt]
  · intro hle
    simp [resolve_crawl_range, Nat.not_lt.mpr hle]

/-- Witness for `override_validation` at concrete dates. -/
theorem override_validation_witness :
    resolve_crawl_range (some 5) (some 1) none none 0 9
      = Except.error ConfigError.conflicting_overrides
    ∧ resolve_crawl_range none (some 4) (some 2) none 0 9
      = Except.error ConfigError.invalid_range
    ∧ resolve_crawl_range none (some 2) (some 4) none 0 9 = Except.ok (2, 4) :=
  ⟨(override_validation 5 1 2 0 9 none).1 (some 1) none (by decide),
   (override_validation 5 4 2 0 9 none).2.2.2.1 (by decide),
   (override_validation 5 2 4 0 9 none).2.2.2.2.2 (by decide)⟩

/-! ### The repository tables and idempotent upserts

`daily_journals` and `notices` are embedded as lists of rows.  `NOW()` is
an explicit `now` argument; the id a fresh `INSERT` would receive is an
explicit `new_id` argument.  The `ON CONFLICT (source_id, issue_date)`
clause relies on the unique index on that key, so theorems that need it
assume at most one row per key. -/

/-- A row of the `daily_journals` table. -/
structure DailyJournal where
  id : Nat
  source_id : Nat
  issue_date : Nat
  url : String
  description : String
  created_at : Nat
  updated_at : Nat
deriving DecidableEq

/-- A row of the `notices` table. -/
structure Notice where
  id : Nat
  daily_journal_id : Nat
  title : String
  category : String
  department : String
  url : String
  content : String
  extra_info : String
  created_at : Nat
  updated_at : Nat
deriving DecidableEq

/-- The persistent store. -/
structure Db where
  daily_journals : List DailyJournal
  notices : List Notice
deriving DecidableEq

/-- The natural key `(source_id, issue_date)` of `daily_journals`. -/
def journalKeyMatches (source_id issue_date : Nat) (j : DailyJournal) : Bool :=
  j.source_id == source_id && j.issue_date == issue_date

/-- `upsert_daily_journal` (crawler_dogc.py lines 474-491, and the same
SQL in crawler_boe.py lines 281-310): `INSERT ... ON CONFLICT
(source_id, issue_date) DO UPDATE SET url, description, updated_at`.
On conflict the row holding the key is updated in place; otherwise a new
row is appended. -/
def upsert_daily_journal (db : Db) (source_id issue_date : Nat)
    (url description : String) (now new_id : Nat) : Db :=
  if db.daily_journals.any (journalKeyMatches source_id issue_date) then
    { db with daily_journals := db.daily_journals.map (fun j =>
        if journalKeyMatches source_id issue_date j then
          { j with url := url, description := description, updated_at := now }
        else j) }
  else
    { db with daily_journals := db.daily_journals ++
        [{ id := new_id, source_id := source_id, issue_date := issue_date,
           url := url, description := description,
           created_at := now, updated_at := now }] }

/-- Filtering by a predicate preserved by a conditional update commutes
with the conditional map. -/
lemma filter_map_updateIf {α : Type} (p : α → Bool) (f : α → α)
    (hpf : ∀ a, p (f a) = p a) (l : List α) :
    (l.map (fun a => if p a then f a else a)).filter p
      = (l.filter p).map f := by
  induction l with
  | nil => rfl
  | cons a l ih =>
    by_cases hpa : p a = true
    · simp [hpa, hpf, ih]
    · have hpa' : p a = false := by simpa using hpa
      simp [hpa', ih]

/-- A conditional field update does not change the row ids. -/
lemma map_id_updateIf (p : DailyJournal → Bool)
    (u de : String) (now : Nat) (l : List DailyJournal) :
    (l.map (fun j =>
        if p j then { j with url := u, description := de, updated_at := now }
        else j)).map (fun j => j.id)
      = l.map (fun j => j.id) := by
  induction l with
  | nil => rfl
  | cons a l ih =>
    by_cases hpa : p a = true
    · simp [hpa, ih]
    · simp [hpa, ih]

/-- The conditional update applied by `upsert_daily_journal` keeps the
natural key of every row. -/
lemma journalKeyMatches_update (sid d : Nat) (u de : String) (now : Nat)
    (j : DailyJournal) :
    journalKeyMatches sid d { j with url := u, description := de, updated_at := now }
      = journalKeyMatches sid d j := rfl

/-- Core of the idempotent-upsert argument: starting from a table with at
most one row per key, one `upsert_daily_journal` leaves exactly one row
for the key, holding the supplied url, description and modified marker. -/
lemma upsert_daily_journal_key_singleton (db : Db) (sid d : Nat)
    (u de : String) (now i : Nat)
    (huniq : (db.daily_journals.filter (journalKeyMatches sid d)).length ≤ 1) :
    ((upsert_daily_journal db sid d u de now i).daily_journals.filter
        (journalKeyMatches sid d)).length = 1
    ∧ ∀ j ∈ (upsert_daily_journal db sid d u de now i).daily_journals.filter
        (journalKeyMatches sid d),
        j.url = u ∧ j.description = de ∧ j.updated_at = now := by
  by_cases hany : db.daily_journals.any (journalKeyMatches sid d) = true
  · have hfilter :
        (upsert_daily_journal db sid d u de now i).daily_journals.filter
            (journalKeyMatches sid d)
          = (db.daily_journals.filter (journalKeyMatches sid d)).map
              (fun j => { j with url := u, description := de, updated_at := now }) := by
      simp only [upsert_daily_journal, if_pos hany]
      exact filter_map_updateIf (journalKeyMatches sid d) _
        (fun a => journalKeyMatches_update sid d u de now a) db.daily_journals
    have hne : db.daily_journals.filter (journalKeyMatches sid d) ≠ [] := by
      rcases List.any_eq_true.mp hany with ⟨x, hx, hkx⟩
      intro hnil
      have : x ∈ db.daily_journals.filter (journalKeyMatches sid d) :=
        List.mem_filter.mpr ⟨hx, hkx⟩
      simp [hnil] at this
    constructor
    · rw [hfilter, List.length_map]
      have hpos : 0 < (db.daily_journals.filter (journalKeyMatches sid d)).length :=
        List.length_pos.mpr hne
      omega
    · intro j hj
      rw [hfilter] at hj
      rcases List.mem_map.mp hj with ⟨x, _, hx⟩
      subst hx
      exact ⟨rfl, rfl, rfl⟩
  · have hempty : db.daily_journals.filter (journalKeyMatches sid d) = [] := by
      rw [List.filter_eq_nil_iff]
      intro a ha hka
      exact hany (List.any_eq_true.mpr ⟨a, ha, hka⟩)
    have hkey : journalKeyMatches sid d
        { id := i, source_id := sid, issue_date := d, url := u, description := de,
          created_at := now, updated_at := now } = true := by
      simp [journalKeyMatches]
    have hfilter :
        (upsert_daily_journal db sid d u de now i).daily_journals.filter
            (journalKeyMatches sid d)
          = [{ id := i, source_id := sid, issue_date := d, url := u, description := de,
               created_at := now, updated_at := now }] := by
      simp only [upsert_daily_journal, if_neg hany]
      rw [List.filter_append, hempty, List.nil_append]
      simp [hkey]
    constructor
    · rw [hfilter]; rfl
    · intro j hj
      rw [hfilter] at hj
      rcases List.mem_singleton.mp hj with rfl
      exact ⟨rfl, rfl, rfl⟩

/-- C3: with at most one row per `(source_id, issue_date)` key —
guaranteed by the unique index the `ON CONFLICT` clause relies on —
`upsert_daily_journal` (a) inserts exactly one row when the key is
absent, (b) updates url, description and the modified marker in place
(same length, same ids) when the key is present, and (c) two calls with
the same key leave exactly one row for the key, holding the latest
description. -/
theorem upsert_issue_idempotent (db : Db) (sid d : Nat) (u1 u2 de1 de2 : String)
    (t1 t2 i1 i2 : Nat)
    (huniq : (db.daily_journals.filter (journalKeyMatches sid d)).length ≤ 1) :
    (db.daily_journals.filter (journalKeyMatches sid d) = [] →
      ((upsert_daily_journal db sid d u1 de1 t1 i1).daily_journals.filter
          (journalKeyMatches sid d)).length = 1
      ∧ (upsert_daily_journal db sid d u1 de1 t1 i1).daily_journals.length
          = db.daily_journals.length + 1)
    ∧ (db.daily_journals.filter (journalKeyMatches sid d) ≠ [] →
      (upsert_daily_journal db sid d u1 de1 t1 i1).daily_journals.length
          = db.daily_journals.length
      ∧ (upsert_daily_journal db sid d u1 de1 t1 i1).daily_journals.map
          (fun j => j.id) = db.daily_journals.map (fun j => j.id)
      ∧ ∀ j ∈ (upsert_daily_journal db sid d u1 de1 t1 i1).daily_journals.filter
          (journalKeyMatches sid d),
          j.url = u1 ∧ j.description = de1 ∧ j.updated_at = t1)
    ∧ (((upsert_daily_journal (upsert_daily_journal db sid d u1 de1 t1 i1)
          sid d u2 de2 t2 i2).daily_journals.filter
            (journalKeyMatches sid d)).length = 1
      ∧ ∀ j ∈ (upsert_daily_journal (upsert_daily_journal db sid d u1 de1 t1 i1)
          sid d u2 de2 t2 i2).daily_journals.filter (journalKeyMatches sid d),
          j.description = de2) := by
  refine ⟨?_, ?_, ?_⟩
  · intro hempty
    refine ⟨(upsert_daily_journal_key_singleton db sid d u1 de1 t1 i1 huniq).1, ?_⟩
    have hany : db.daily_journals.any (journalKeyMatches sid d) = false := by
      rw [List.any_eq_false]
      intro a ha
      have := List.filter_eq_nil_iff.mp hempty a ha
      simpa using this
    simp [upsert_daily_journal, hany]
  · intro hne
    have hany : db.daily_journals.any (journalKeyMatches sid d) = true := by
      rcases List.exists_mem_of_ne_nil _ hne with ⟨x, hx⟩
      rcases List.mem_filter.mp hx with ⟨hxm, hxk⟩
      exact List.any_eq_true.mpr ⟨x, hxm, hxk⟩
    refine ⟨?_, ?_, ?_⟩
    · simp [upsert_daily_journal, hany]
    · simp only [upsert_daily_journal, if_pos hany]
      exact map_id_updateIf (journalKeyMatches sid d) u1 de1 t1 db.daily_journals
    · exact fun j hj =>
        ((upsert_daily_journal_key_singleton db sid d u1 de1 t1 i1 huniq).2 j hj).imp
          id (fun h => h)
  · have h1 := upsert_daily_journal_key_singleton db sid d u1 de1 t1 i1 huniq
    have h2 := upsert_daily_journal_key_singleton
      (upsert_daily_journal db sid d u1 de1 t1 i1) sid d u2 de2 t2 i2
      (by rw [h1.1])
    exact ⟨h2.1, fun j hj => ((h2.2 j hj).2).1⟩

/-- Witness for `upsert_issue_idempotent` starting from an empty table:
inserting and then updating the key `(7, 5)` leaves one row with the
latest description. -/
theorem upsert_issue_idempotent_witness :
    ((upsert_daily_journal (⟨[], []⟩ : Db) 7 5 "u1" "d1" 1 1).daily_journals.filter
        (journalKeyMatches 7 5)).length = 1
    ∧ ((upsert_daily_journal (upsert_daily_journal (⟨[], []⟩ : Db) 7 5 "u1" "d1" 1 1)
          7 5 "u2" "d2" 2 2).daily_journals.filter
            (journalKeyMatches 7 5)).length = 1
    ∧ ∀ j ∈ (upsert_daily_journal (upsert_daily_journal (⟨[], []⟩ : Db) 7 5 "u1" "d1" 1 1)
          7 5 "u2" "d2" 2 2).daily_journals.filter (journalKeyMatches 7 5),
        j.description = "d2" :=
  ⟨((upsert_issue_idempotent (⟨[], []⟩ : Db) 7 5 "u1" "u2" "d1" "d2" 1 2 1 2
      (by decide)).1 rfl).1,
   (upsert_issue_idempotent (⟨[], []⟩ : Db) 7 5 "u1" "u2" "d1" "d2" 1 2 1 2
      (by decide)).2.2.1,
   (upsert_issue_idempotent (⟨[], []⟩ : Db) 7 5 "u1" "u2" "d1" "d2" 1 2 1 2
      (by decide)).2.2.2⟩

/-- Match on the `(daily_journal_id, url)` pair of a notice row. -/
def noticeUrlMatches (daily_journal_id : Nat) (url : String) (n : Notice) : Bool :=
  n.daily_journal_id == daily_journal_id && n.url == url

/-- Match on the `(daily_journal_id, title)` pair of a notice row. -/
def noticeTitleMatches (daily_journal_id : Nat) (title : String) (n : Notice) : Bool :=
  n.daily_journal_id == daily_journal_id && n.title == title

/-- The `existing_id` resolution of `upsert_notice` (crawler_dogc.py
lines 663-694, identical in crawler_boe.py lines 374-405): when `url` is
non-empty, look up the lowest-id row matching `(daily_journal_id, url)`;
whenever that lookup produced nothing — also when `url` was non-empty —
fall through to the lowest-id row matching `(daily_journal_id, title)`.
`ORDER BY id ASC LIMIT 1` is the id-minimal element of the matching
rows. -/
def resolve_existing_notice (notices : List Notice) (daily_journal_id : Nat)
    (title url : String) : Option Notice :=
  match (if url ≠ "" then
      (notices.filter (noticeUrlMatches daily_journal_id url)).argmin (fun n => n.id)
    else none) with
  | some n => some n
  | none =>
    (notices.filter (noticeTitleMatches daily_journal_id title)).argmin (fun n => n.id)

/-- The `UPDATE notices SET ...` row transformation of `upsert_notice`. -/
def updateNoticeRow (title category department url content extra_info : String)
    (now : Nat) (n : Notice) : Notice :=
  { n with
    title := title, category := category, department := department,
    url := url, content := content, extra_info := extra_info, updated_at := now }

/-- `upsert_notice` (crawler_dogc.py lines 652-724, crawler_boe.py lines
363-435): resolve an existing row, update it in place by id when found,
insert a new row otherwise. -/
def upsert_notice (db : Db) (daily_journal_id : Nat)
    (title category department url content extra_info : String)
    (now new_id : Nat) : Db :=
  match resolve_existing_notice db.notices daily_journal_id title url with
  | none =>
    { db with notices := db.notices ++
        [{ id := new_id, daily_journal_id := daily_journal_id, title := title,
           category := category, department := department, url := url,
           content := content, extra_info := extra_info,
           created_at := now, updated_at := now }] }
  | some n =>
    { db with notices := db.notices.map (fun m =>
        if m.id == n.id then
          updateNoticeRow title category department url content extra_info now m
        else m) }

/-- Modelled from the spec: claim C4 reads the resolution as "by
`(issueId, url)` if `url` non-empty, else by `(issueId, title)`" — the
title lookup used only when the url is empty, with no fall-through after
a missed url lookup. -/
def resolve_existing_notice_specWording (notices : List Notice)
    (daily_journal_id : Nat) (title url : String) : Option Notice :=
  if url ≠ "" then
    (notices.filter (noticeUrlMatches daily_journal_id url)).argmin (fun n => n.id)
  else
    (notices.filter (noticeTitleMatches daily_journal_id title)).argmin (fun n => n.id)

/-- Modelled from the spec: `upsert_notice` with the claim's resolution
rule, for comparison against the source's behaviour. -/
def upsert_notice_specWording (db : Db) (daily_journal_id : Nat)
    (title category department url content extra_info : String)
    (now new_id : Nat) : Db :=
  match resolve_existing_notice_specWording db.notices daily_journal_id title url with
  | none =>
    { db with notices := db.notices ++
        [{ id := new_id, daily_journal_id := daily_journal_id, title := title,
           category := category, department := department, url := url,
           content := content, extra_info := extra_info,
           created_at := now, updated_at := now }] }
  | some n =>
    { db with notices := db.notices.map (fun m =>
        if m.id == n.id then
          updateNoticeRow title category department url content extra_info now m
        else m) }

/-- A stored notice with url "A", used in the C4 counterexample. -/
def noticeRowA : Notice :=
  { id := 1, daily_journal_id := 5, title := "T", category := "", department := "",
    url := "A", content := "old", extra_info := "", created_at := 0, updated_at := 0 }

/-- A store holding only `noticeRowA`. -/
def dbOneNotice : Db := { daily_journals := [], notices := [noticeRowA] }

/-- C4 counterexample: calling `upsert_notice` with the non-empty url
"B", which matches no row, and the title "T" of the stored row with url
"A": the source falls through to the title lookup and updates the stored
row in place (one row, id 1, url now "B"), while under the claim's
resolution rule — title lookup only when the url is empty — a new row
would be inserted (two rows).  The title-based resolution is therefore
not used only when the url is empty. -/
theorem upsert_notice_title_fallback_counterexample :
    (upsert_notice dbOneNotice 5 "T" "" "" "B" "new" "" 7 2).notices
      = [updateNoticeRow "T" "" "" "B" "new" "" 7 noticeRowA]
    ∧ (upsert_notice dbOneNotice 5 "T" "" "" "B" "new" "" 7 2).notices.length = 1
    ∧ (upsert_notice_specWording dbOneNotice 5 "T" "" "" "B" "new" "" 7 2).notices.length
        = 2 :=
  ⟨rfl, rfl, rfl⟩

/-- A resolved existing notice row belongs to the table and carries the
requested `daily_journal_id`. -/
lemma resolve_existing_notice_mem (ns : List Notice) (jid : Nat) (title url : String)
    (n : Notice) (h : resolve_existing_notice ns jid title url = some n) :
    n ∈ ns ∧ n.daily_journal_id = jid := by
  unfold resolve_existing_notice at h
  by_cases hu : url ≠ ""
  · rw [if_pos hu] at h
    cases hau : (ns.filter (noticeUrlMatches jid url)).argmin (fun n => n.id) with
    | some m =>
      rw [hau] at h
      have hmn : m = n := by simpa using h
      have hm : m ∈ ns.filter (noticeUrlMatches jid url) :=
        List.argmin_mem (Option.mem_def.mpr hau)
      rcases List.mem_filter.mp hm with ⟨hmem, hmatch⟩
      simp only [noticeUrlMatches, Bool.and_eq_true, beq_iff_eq] at hmatch
      exact hmn ▸ ⟨hmem, hmatch.1⟩
    | none =>
      rw [hau] at h
      simp only at h
      have hm : n ∈ ns.filter (noticeTitleMatches jid title) :=
        List.argmin_mem (Option.mem_def.mpr h)
      rcases List.mem_filter.mp hm with ⟨hmem, hmatch⟩
      simp only [noticeTitleMatches, Bool.and_eq_true, beq_iff_eq] at hmatch
      exact ⟨hmem, hmatch.1⟩
  · rw [if_neg hu] at h
    simp only at h
    have hm : n ∈ ns.filter (noticeTitleMatches jid title) :=
      List.argmin_mem (Option.mem_def.mpr h)
    rcases List.mem_filter.mp hm with ⟨hmem, hmatch⟩
    simp only [noticeTitleMatches, Bool.and_eq_true, beq_iff_eq] at hmatch
    exact ⟨hmem, hmatch.1⟩

/-- After any `upsert_notice` call with a non-empty url, some row of the
table matches `(daily_journal_id, url)` and holds the supplied content
and modified marker. -/
lemma upsert_notice_url_match_exists (db : Db) (jid : Nat)
    (title cat dep url c e : String) (now i : Nat) :
    ∃ n ∈ (upsert_notice db jid title cat dep url c e now i).notices,
      n.daily_journal_id = jid ∧ n.url = url ∧ n.content = c ∧ n.updated_at = now := by
  cases hres : resolve_existing_notice db.notices jid title url with
  | none =>
    refine ⟨{ id := i, daily_journal_id := jid, title := title, category := cat,
              department := dep, url := url, content := c, extra_info := e,
              created_at := now, updated_at := now }, ?_, rfl, rfl, rfl, rfl⟩
    simp [upsert_notice, hres]
  | some m =>
    rcases resolve_existing_notice_mem db.notices jid title url m hres with ⟨hmem, hjid⟩
    refine ⟨updateNoticeRow title cat dep url c e now m, ?_, ?_, rfl, rfl, rfl⟩
    · simp only [upsert_notice, hres]
      exact List.mem_map.mpr ⟨m, hmem, by simp⟩
    · simpa [updateNoticeRow] using hjid

/-- When a `(daily_journal_id, url)` match exists and the url is
non-empty, `upsert_notice` takes the update branch: the table length is
unchanged and the resolved row now holds the supplied fields. -/
lemma upsert_notice_update_branch (db : Db) (jid : Nat)
    (title cat dep url c e : String) (now i : Nat) (hurl : url ≠ "")
    (hne : db.notices.filter (noticeUrlMatches jid url) ≠ []) :
    (upsert_notice db jid title cat dep url c e now i).notices.length
      = db.notices.length
    ∧ ∃ n ∈ (upsert_notice db jid title cat dep url c e now i).notices,
        n.daily_journal_id = jid ∧ n.url = url ∧ n.content = c ∧ n.updated_at = now := by
  cases hau : (db.notices.filter (noticeUrlMatches jid url)).argmin (fun n => n.id) with
  | none => exact absurd (List.argmin_eq_none.mp hau) hne
  | some m =>
    have hres : resolve_existing_notice db.notices jid title url = some m := by
      unfold resolve_existing_notice
      rw [if_pos hurl, hau]
    refine ⟨?_, ?_⟩
    · simp [upsert_notice, hres]
    · have hm : m ∈ db.notices.filter (noticeUrlMatches jid url) :=
        List.argmin_mem (Option.mem_def.mpr hau)
      rcases List.mem_filter.mp hm with ⟨hmem, hmatch⟩
      simp only [noticeUrlMatches, Bool.and_eq_true, beq_iff_eq] at hmatch
      refine ⟨updateNoticeRow title cat dep url c e now m, ?_, ?_, rfl, rfl, rfl⟩
      · simp only [upsert_notice, hres]
        exact List.mem_map.mpr ⟨m, hmem, by simp⟩
      · simpa [updateNoticeRow] using hmatch.1

/-- C4 (amended): the existing row is resolved by
`(daily_journal_id, url)` when the url is non-empty, and whenever that
lookup finds nothing — also when the url is non-empty — by
`(daily_journal_id, title)`; on a match the row is updated in place, else
a new row is inserted.  In particular (i) two calls with the same
`(daily_journal_id, url)` and different content update in place with no
duplicate row, and (ii) with a non-empty url matching no row but a title
match present, the call updates the title match instead of inserting. -/
theorem upsert_notice_resolution (db : Db) (jid : Nat)
    (t1 t2 cat1 cat2 dep1 dep2 url c1 c2 e1 e2 : String)
    (now1 now2 i1 i2 : Nat) (hurl : url ≠ "") :
    ((upsert_notice (upsert_notice db jid t1 cat1 dep1 url c1 e1 now1 i1)
        jid t2 cat2 dep2 url c2 e2 now2 i2).notices.length
      = (upsert_notice db jid t1 cat1 dep1 url c1 e1 now1 i1).notices.length
    ∧ ∃ n ∈ (upsert_notice (upsert_notice db jid t1 cat1 dep1 url c1 e1 now1 i1)
        jid t2 cat2 dep2 url c2 e2 now2 i2).notices,
        n.daily_journal_id = jid ∧ n.url = url ∧ n.content = c2)
    ∧ (db.notices.filter (noticeUrlMatches jid url) = [] →
      db.notices.filter (noticeTitleMatches jid t1) ≠ [] →
      (upsert_notice db jid t1 cat1 dep1 url c1 e1 now1 i1).notices.length
        = db.notices.length) := by
  constructor
  · rcases upsert_notice_url_match_exists db jid t1 cat1 dep1 url c1 e1 now1 i1
      with ⟨n, hnmem, hnjid, hnurl, -, -⟩
    have hne : (upsert_notice db jid t1 cat1 dep1 url c1 e1 now1 i1).notices.filter
        (noticeUrlMatches jid url) ≠ [] := by
      intro hnil
      have : n ∈ (upsert_notice db jid t1 cat1 dep1 url c1 e1 now1 i1).notices.filter
          (noticeUrlMatches jid url) :=
        List.mem_filter.mpr ⟨hnmem, by simp [noticeUrlMatches, hnjid, hnurl]⟩
      simp [hnil] at this
    rcases upsert_notice_update_branch
        (upsert_notice db jid t1 cat1 dep1 url c1 e1 now1 i1) jid t2 cat2 dep2
        url c2 e2 now2 i2 hurl hne with ⟨hlen, m, hmmem, hmjid, hmurl, hmc, -⟩
    exact ⟨hlen, m, hmmem, hmjid, hmurl, hmc⟩
  · intro hempty hne
    cases hat : (db.notices.filter (noticeTitleMatches jid t1)).argmin (fun n => n.id) with
    | none => exact absurd (List.argmin_eq_none.mp hat) hne
    | some m =>
      have hres : resolve_existing_notice db.notices jid t1 url = some m := by
        unfold resolve_existing_notice
        rw [if_pos hurl, hempty]
        simp [hat]
      simp [upsert_notice, hres]

/-- Witness for `upsert_notice_resolution`: two upserts of the url "U"
into an empty store leave a single row with the latest content. -/
theorem upsert_notice_resolution_witness :
    ((upsert_notice (upsert_notice (⟨[], []⟩ : Db) 5 "t1" "" "" "U" "c1" "" 1 1)
        5 "t2" "" "" "U" "c2" "" 2 2).notices.length
      = (upsert_notice (⟨[], []⟩ : Db) 5 "t1" "" "" "U" "c1" "" 1 1).notices.length
    ∧ ∃ n ∈ (upsert_notice (upsert_notice (⟨[], []⟩ : Db) 5 "t1" "" "" "U" "c1" "" 1 1)
        5 "t2" "" "" "U" "c2" "" 2 2).notices,
        n.daily_journal_id = 5 ∧ n.url = "U" ∧ n.content = "c2") :=
  (upsert_notice_resolution (⟨[], []⟩ : Db) 5 "t1" "t2" "" "" "" "" "U" "c1" "c2" "" ""
    1 2 1 2 (by decide)).1

/-! ### The pending-work query (crawler_dogc.py fetch_pending_daily_journal) -/

/-- Python `str.strip()`: drop leading and trailing whitespace.  Defined
over the character list so that it evaluates by kernel reduction. -/
def pyStrip (s : String) : String :=
  String.mk
    (((s.data.dropWhile Char.isWhitespace).reverse.dropWhile Char.isWhitespace).reverse)

/-- Number of notices referencing a daily journal; `COUNT(n.id)` over the
`LEFT JOIN` counts exactly the matching notice rows. -/
def noticeCount (db : Db) (daily_journal_id : Nat) : Nat :=
  (db.notices.filter (fun n => n.daily_journal_id == daily_journal_id)).length

/-- The `ORDER BY dj.issue_date ASC, dj.id ASC` ordering. -/
def pendingKeyLe (a b : DailyJournal) : Prop :=
  a.issue_date < b.issue_date ∨ (a.issue_date = b.issue_date ∧ a.id ≤ b.id)

instance : DecidableRel pendingKeyLe :=
  fun a b => inferInstanceAs
    (Decidable (a.issue_date < b.issue_date ∨ (a.issue_date = b.issue_date ∧ a.id ≤ b.id)))

instance : IsTotal DailyJournal pendingKeyLe :=
  ⟨fun a b => by unfold pendingKeyLe; omega⟩

instance : IsTrans DailyJournal pendingKeyLe :=
  ⟨fun a b c hab hbc => by
    unfold pendingKeyLe at hab hbc ⊢
    omega⟩

/-- The SQL of `fetch_pending_daily_journal` (crawler_dogc.py lines
498-509): daily journals of the source with zero associated notices,
ordered by issue date ascending then id ascending. -/
def queryPendingJournals (db : Db) (source_id : Nat) : List DailyJournal :=
  List.insertionSort pendingKeyLe
    (db.daily_journals.filter
      (fun j => j.source_id == source_id && noticeCount db j.id == 0))

/-- The record `fetch_pending_daily_journal` returns: id, issue date, and
the whitespace-stripped url and description (the Python renders the issue
date as ISO text; the date value itself is kept here). -/
structure SelectedJournal where
  id : Nat
  issue_date : Nat
  url : String
  description : String
deriving DecidableEq

/-- Build the returned record from a row, stripping url and
description. -/
def toSelectedJournal (j : DailyJournal) : SelectedJournal :=
  { id := j.id, issue_date := j.issue_date, url := pyStrip j.url,
    description := pyStrip j.description }

/-- The `for row in rows` loop of `fetch_pending_daily_journal`
(crawler_dogc.py lines 515-539): skip rows already attempted this run,
skip rows whose stripped url is empty (with a warning), return the first
remaining row. -/
def pendingScanLoop (attempted : List Nat) : List DailyJournal → Option SelectedJournal
  | [] => none
  | row :: rest =>
    if row.id ∈ attempted then pendingScanLoop attempted rest
    else if pyStrip row.url = "" then pendingScanLoop attempted rest
    else some (toSelectedJournal row)

/-- `fetch_pending_daily_journal` (crawler_dogc.py lines 494-539). -/
def fetch_pending_daily_journal (db : Db) (source_id : Nat) (attempted : List Nat) :
    Option SelectedJournal :=
  pendingScanLoop attempted (queryPendingJournals db source_id)

/-- Membership in the pending query is exactly: row of the source with
zero notices. -/
lemma mem_queryPendingJournals (db : Db) (sid : Nat) (j : DailyJournal) :
    j ∈ queryPendingJournals db sid ↔
      (j ∈ db.daily_journals ∧ j.source_id = sid ∧ noticeCount db j.id = 0) := by
  simp [queryPendingJournals, List.mem_filter, Bool.and_eq_true, beq_iff_eq,
    and_assoc]

/-- The scan loop picks the first row that is neither attempted nor
blank-url. -/
lemma pendingScanLoop_eq_find (attempted : List Nat) (l : List DailyJournal) :
    pendingScanLoop attempted l
      = (l.find? (fun r => !(decide (r.id ∈ attempted))
            && !(decide (pyStrip r.url = "")))).map toSelectedJournal := by
  induction l with
  | nil => rfl
  | cons row rest ih =>
    by_cases h1 : row.id ∈ attempted
    · rw [show pendingScanLoop attempted (row :: rest)
          = pendingScanLoop attempted rest by simp [pendingScanLoop, h1], ih,
        List.find?_cons_of_neg]
      simp [h1]
    · by_cases h2 : pyStrip row.url = ""
      · rw [show pendingScanLoop attempted (row :: rest)
            = pendingScanLoop attempted rest by simp [pendingScanLoop, h1, h2], ih,
          List.find?_cons_of_neg]
        simp [h2]
      · rw [show pendingScanLoop attempted (row :: rest)
            = some (toSelectedJournal row) by simp [pendingScanLoop, h1, h2],
          List.find?_cons_of_pos]
        · rfl
        · simp [h1, h2]

/-- The scan loop returns nothing exactly when every row is attempted or
blank-url. -/
lemma pendingScanLoop_eq_none_iff (attempted : List Nat) (l : List DailyJournal) :
    pendingScanLoop attempted l = none ↔
      ∀ j ∈ l, j.id ∈ attempted ∨ pyStrip j.url = "" := by
  induction l with
  | nil => simp [pendingScanLoop]
  | cons row rest ih =>
    by_cases h1 : row.id ∈ attempted
    · simp [pendingScanLoop, h1, ih]
    · by_cases h2 : pyStrip row.url = ""
      · simp [pendingScanLoop, h1, h2, ih]
      · simp [pendingScanLoop, h1, h2]

/-- A selected record comes from a list row that is neither attempted nor
blank-url. -/
lemma pendingScanLoop_some (attempted : List Nat) (l : List DailyJournal)
    (sel : SelectedJournal) (h : pendingScanLoop attempted l = some sel) :
    ∃ j ∈ l, sel = toSelectedJournal j ∧ pyStrip j.url ≠ "" ∧ ¬ j.id ∈ attempted := by
  induction l with
  | nil => simp [pendingScanLoop] at h
  | cons row rest ih =>
    by_cases h1 : row.id ∈ attempted
    · rw [show pendingScanLoop attempted (row :: rest)
          = pendingScanLoop attempted rest by simp [pendingScanLoop, h1]] at h
      rcases ih h with ⟨j, hj, hsel, hu, ha⟩
      exact ⟨j, List.mem_cons_of_mem row hj, hsel, hu, ha⟩
    · by_cases h2 : pyStrip row.url = ""
      · rw [show pendingScanLoop attempted (row :: rest)
            = pendingScanLoop attempted rest by simp [pendingScanLoop, h1, h2]] at h
        rcases ih h with ⟨j, hj, hsel, hu, ha⟩
        exact ⟨j, List.mem_cons_of_mem row hj, hsel, hu, ha⟩
      · rw [show pendingScanLoop attempted (row :: rest)
            = some (toSelectedJournal row) by simp [pendingScanLoop, h1, h2]] at h
        cases h
        exact ⟨row, List.mem_cons_self row rest, rfl, h2, h1⟩

/-- C2 (amended): the pending query returns exactly the issues of the
source with zero associated notices, ordered by issue date ascending then
id ascending, and never one with a persisted notice; the item selected
for processing is the first returned issue whose id is not in the
attempted set and whose stored url is non-blank. -/
theorem pending_query_contract (db : Db) (sid : Nat) (attempted : List Nat) :
    (∀ j : DailyJournal, j ∈ queryPendingJournals db sid ↔
        (j ∈ db.daily_journals ∧ j.source_id = sid ∧ noticeCount db j.id = 0))
    ∧ List.Sorted pendingKeyLe (queryPendingJournals db sid)
    ∧ (∀ j ∈ queryPendingJournals db sid, noticeCount db j.id = 0)
    ∧ fetch_pending_daily_journal db sid attempted
        = ((queryPendingJournals db sid).find?
            (fun r => !(decide (r.id ∈ attempted))
              && !(decide (pyStrip r.url = "")))).map toSelectedJournal := by
  refine ⟨mem_queryPendingJournals db sid, ?_, ?_, ?_⟩
  · exact List.sorted_insertionSort pendingKeyLe _
  · intro j hj
    exact ((mem_queryPendingJournals db sid j).mp hj).2.2
  · exact pendingScanLoop_eq_find attempted (queryPendingJournals db sid)

/-- A pending journal whose stored url is whitespace-only. -/
def journalBlankUrl : DailyJournal :=
  { id := 1, source_id := 7, issue_date := 5, url := "  ", description := "d",
    created_at := 0, updated_at := 0 }

/-- A pending journal with a usable url. -/
def journalGoodUrl : DailyJournal :=
  { id := 2, source_id := 7, issue_date := 6, url := "u", description := "e",
    created_at := 0, updated_at := 0 }

/-- A store with a single pending issue whose url is blank. -/
def dbBlankUrl : Db := { daily_journals := [journalBlankUrl], notices := [] }

/-- A store with a blank-url pending issue followed by a good one. -/
def dbMixed : Db := { daily_journals := [journalBlankUrl, journalGoodUrl], notices := [] }

/-- C2 counterexample: with one pending issue (zero notices) whose stored
url is whitespace-only and an empty attempted set, the first returned
issue not in the attempted set is that issue, yet
`fetch_pending_daily_journal` selects nothing — the selection is not
simply "first returned issue not in the AttemptedSet". -/
theorem pending_selection_counterexample :
    queryPendingJournals dbBlankUrl 7 = [journalBlankUrl]
    ∧ (queryPendingJournals dbBlankUrl 7).find?
        (fun r => !(decide (r.id ∈ ([] : List Nat)))) = some journalBlankUrl
    ∧ fetch_pending_daily_journal dbBlankUrl 7 [] = none :=
  ⟨by decide, by decide, by decide⟩

/-- C10: the pending fetch skips every row with a blank url: it returns
nothing exactly when all pending rows are attempted or blank-url, and any
selected record stems from a pending zero-notice row that is neither,
carrying a non-empty stripped url. -/
theorem pending_fetch_skips_blank_urls (db : Db) (sid : Nat) (attempted : List Nat) :
    (fetch_pending_daily_journal db sid attempted = none ↔
      ∀ j ∈ queryPendingJournals db sid, j.id ∈ attempted ∨ pyStrip j.url = "")
    ∧ (∀ sel : SelectedJournal,
        fetch_pending_daily_journal db sid attempted = some sel →
        sel.url ≠ "" ∧ ¬ sel.id ∈ attempted
        ∧ ∃ j ∈ queryPendingJournals db sid,
            sel = toSelectedJournal j ∧ pyStrip j.url ≠ "" ∧ ¬ j.id ∈ attempted
            ∧ noticeCount db j.id = 0) := by
  constructor
  · exact pendingScanLoop_eq_none_iff attempted (queryPendingJournals db sid)
  · intro sel hsel
    rcases pendingScanLoop_some attempted (queryPendingJournals db sid) sel hsel
      with ⟨j, hj, hselj, hu, ha⟩
    subst hselj
    refine ⟨hu, ha, j, hj, rfl, hu, ha, ?_⟩
    exact ((mem_queryPendingJournals db sid j).mp hj).2.2

/-- Witness for `pending_fetch_skips_blank_urls`: in `dbMixed` the
blank-url issue is skipped and the good one selected. -/
theorem pending_fetch_skips_blank_urls_witness :
    (toSelectedJournal journalGoodUrl).url ≠ ""
    ∧ ¬ (toSelectedJournal journalGoodUrl).id ∈ ([] : List Nat)
    ∧ ∃ j ∈ queryPendingJournals dbMixed 7,
        toSelectedJournal journalGoodUrl = toSelectedJournal j ∧ pyStrip j.url ≠ ""
        ∧ ¬ j.id ∈ ([] : List Nat) ∧ noticeCount dbMixed j.id = 0 :=
  (pending_fetch_skips_blank_urls dbMixed 7 []).2 (toSelectedJournal journalGoodUrl)
    (by decide)

/-- Witness for `pending_query_contract` on the mixed store. -/
theorem pending_query_contract_witness :
    journalGoodUrl ∈ queryPendingJournals dbMixed 7
    ∧ fetch_pending_daily_journal dbMixed 7 []
        = ((queryPendingJournals dbMixed 7).find?
            (fun r => !(decide (r.id ∈ ([] : List Nat)))
              && !(decide (pyStrip r.url = "")))).map toSelectedJournal :=
  ⟨((pending_query_contract dbMixed 7 []).1 journalGoodUrl).mpr
      ⟨by decide, rfl, rfl⟩,
   (pending_query_contract dbMixed 7 []).2.2.2⟩

end Ingesil
